import Mathlib

/-!
Verification of the `web-vlog` crate (`src/lib.rs`): a shallow embedding of
its event encoder, target filter, WebSocket handshake/frame writer and
connection lifecycle, with theorems checking the natural-language
specification against the code.

Rust strings are modelled as `List Char` (Rust `char` and Lean `Char` are
both Unicode scalar values); byte buffers as `List Nat` with every element
below 256; machine integers as `Nat` with explicit `% 2 ^ w` where a cast
occurs.
-/

/-! ## Rust `str::escape_default` (used on every free-text field) -/

/-- Lowercase hex digit character: 0-9 then a-f, as produced by Rust's
`{:x}` formatting inside `char::escape_unicode`. -/
def hexDigitChar (n : Nat) : Char :=
  if n < 10 then Char.ofNat (48 + n) else Char.ofNat (87 + n)

/-- Little-endian digit list of `n` in base 16 (least significant first),
with explicit fuel so that the definition is structural and evaluates in
the kernel.  `fuel ≥ n + 1` is always sufficient. -/
def toHexRevF : Nat → Nat → List Char
  | 0, _ => []
  | fuel + 1, n =>
    if n < 16 then [hexDigitChar n]
    else hexDigitChar (n % 16) :: toHexRevF fuel (n / 16)

/-- Minimal-length lowercase hex rendering of `n`, most significant digit
first: the digits Rust's `char::escape_unicode` places between `\u` braces. -/
def toHexMin (n : Nat) : List Char := (toHexRevF (n + 1) n).reverse

/-- Rust `char::escape_default` of a single character, translated from its
source: `\t`, `\r`, `\n` shorthands, backslash-escaped quotes and
backslash, printable ASCII (0x20–0x7e) verbatim, and `\u` + braced
lowercase hex for everything else. -/
def escapeChar (c : Char) : List Char :=
  if c = '\t' then ['\\', 't']
  else if c = '\r' then ['\\', 'r']
  else if c = '\n' then ['\\', 'n']
  else if c = '\\' then ['\\', '\\']
  else if c = '\'' then ['\\', '\'']
  else if c = '\"' then ['\\', '\"']
  else if 0x20 ≤ c.toNat ∧ c.toNat ≤ 0x7e then [c]
  else '\\' :: 'u' :: Char.ofNat 123 :: (toHexMin c.toNat ++ [Char.ofNat 125])

/-- Rust `str::escape_default`: escape every character in sequence. -/
def escapeDefault (s : List Char) : List Char := s.flatMap escapeChar

/-! ## A standard string-literal parser (receiving side of the escaping) -/

/-- Hex digit value of a character, accepting `0-9`, `a-f` and `A-F`. -/
def hexVal? (c : Char) : Option Nat :=
  if 48 ≤ c.toNat ∧ c.toNat ≤ 57 then some (c.toNat - 48)
  else if 97 ≤ c.toNat ∧ c.toNat ≤ 102 then some (c.toNat - 87)
  else if 65 ≤ c.toNat ∧ c.toNat ≤ 70 then some (c.toNat - 55)
  else none

/-- Whether a character is a hex digit accepted inside `\u` braces. -/
def isHexDigitCh (c : Char) : Bool := (hexVal? c).isSome

/-- Value of a big-endian list of hex digit characters. -/
def hexValList (ds : List Char) : Nat :=
  ds.foldl (fun a c => a * 16 + (hexVal? c).getD 0) 0

/-- Prepend a decoded character to the result of a parse continuation. -/
def consR (c : Char) : Option (List Char × List Char) → Option (List Char × List Char)
  | some (s, r) => some (c :: s, r)
  | none => none

/-- Fuel-indexed scanner for a standard (Rust-style) string literal body:
consumes characters until the first unescaped `"`, decoding `\t`, `\r`,
`\n`, `\\`, `\'`, `\"` and `\u` + braced hex escapes, and returns the
decoded text together with the input remaining after the closing quote.
Reaching the end of input without a closing quote fails.  The `\u` decoder
is permissive (it accepts any number of hex digits and does not re-check
scalar-value validity); this only makes the parser accept more inputs and
is sound for losslessness because the escaper emits valid scalars only.
`fuel ≥` input length is always sufficient. -/
def parseLitF : Nat → List Char → Option (List Char × List Char)
  | 0, _ => none
  | _ + 1, [] => none
  | fuel + 1, c :: rest =>
    if c = '\"' then some ([], rest)
    else if c = '\\' then
      match rest with
      | [] => none
      | e :: rest2 =>
        if e = 't' then consR '\t' (parseLitF fuel rest2)
        else if e = 'r' then consR '\r' (parseLitF fuel rest2)
        else if e = 'n' then consR '\n' (parseLitF fuel rest2)
        else if e = '\\' then consR '\\' (parseLitF fuel rest2)
        else if e = '\'' then consR '\'' (parseLitF fuel rest2)
        else if e = '\"' then consR '\"' (parseLitF fuel rest2)
        else if e = 'u' then
          match rest2 with
          | [] => none
          | b :: rest3 =>
            if b = Char.ofNat 123 then
              match rest3.dropWhile isHexDigitCh with
              | [] => none
              | b2 :: rest4 =>
                if b2 = Char.ofNat 125 then
                  if rest3.takeWhile isHexDigitCh = [] then none
                  else consR (Char.ofNat (hexValList (rest3.takeWhile isHexDigitCh)))
                    (parseLitF fuel rest4)
                else none
            else none
        else none
    else consR c (parseLitF fuel rest)

/-- Parse a string-literal body: scan until the first unescaped quote. -/
def parseLit (l : List Char) : Option (List Char × List Char) :=
  parseLitF l.length l

/-! ## `WebVLogger::enabled` — the target filter (lib.rs lines 192–198) -/

/-- The relevant state of `WebVLogger`: its target whitelist.  The channel
sender is modelled separately (messages a call produces are returned). -/
structure WebVLogger where
  targets : List (List Char)

/-- `WebVLogger::enabled`, translated from the source:
`self.targets.is_empty() || self.targets.iter().any(|target|
metadata.target().starts_with(target))`. -/
def enabled (lg : WebVLogger) (target : List Char) : Bool :=
  lg.targets.isEmpty || lg.targets.any fun t => t.isPrefixOf target

/-! ## `WebVLogger::vlog` / `WebVLogger::clear` — the event encoder
(lib.rs lines 199–263).  `v_log`'s record types are external to the crate;
they are modelled from the spec's data model: a closed color union
(named semantic colors or an explicit 32-bit hex value) and a closed
visual-kind union.  Rendered `f64` coordinates/sizes and `Debug`-rendered
style tags appear as already-rendered character lists, since floating
point display is out of scope of the embedding. -/

/-- Modelled from the spec: `v_log::Color`, a closed tagged union of the
named semantic colors and an explicit 32-bit RGBA hex value (`u32`,
theorems carry `code < 2 ^ 32` where it matters). -/
inductive Color where
  | Base | Healthy | Error | Warn | Info | X | Y | Z
  | Hex (code : Nat)

/-- Modelled from the spec: `v_log::Visual`, the closed visual-kind union.
Coordinates and the `Debug` style tag are pre-rendered text. -/
inductive Visual where
  | Message
  | Label (x y z : List Char) (alignment : Nat)
  | Point (x y z : List Char) (style : List Char)
  | Line (x1 y1 z1 x2 y2 z2 : List Char) (style : List Char)

/-- Modelled from the spec: the read-only view of a `v_log::Record` that
`vlog` consumes.  `args` is the formatted message text (both branches of
the source's `map_or_else` escape that same text), `size` the rendered
size, `alignment` inside `Visual` the `as u8` discriminant (< 256). -/
structure VRecord where
  target : List Char
  file : Option (List Char)
  line : Option Nat
  surface : List Char
  size : List Char
  color : Color
  visual : Visual
  args : List Char

/-- Uppercase hex digit character: 0-9 then A-F, as produced by Rust's
`{:X}` formatting. -/
def hexDigitCharUpper (n : Nat) : Char :=
  if n < 10 then Char.ofNat (48 + n) else Char.ofNat (55 + n)

/-- `{hexcode:08X}`: the eight-hex-digit zero-padded uppercase rendering
of a `u32` (exact for `n < 2 ^ 32`). -/
def toHex8 (n : Nat) : List Char :=
  [hexDigitCharUpper (n / 16 ^ 7 % 16), hexDigitCharUpper (n / 16 ^ 6 % 16),
   hexDigitCharUpper (n / 16 ^ 5 % 16), hexDigitCharUpper (n / 16 ^ 4 % 16),
   hexDigitCharUpper (n / 16 ^ 3 % 16), hexDigitCharUpper (n / 16 ^ 2 % 16),
   hexDigitCharUpper (n / 16 % 16), hexDigitCharUpper (n % 16)]

/-- The string the `col` field carries, from the color match in
`color_meta` (lib.rs lines 216–229): a `var(--…)` token per named variant,
or `#` followed by `{hexcode:08X}` for `Color::Hex`.  Each source branch
pushes this token followed by the closing `"` and `}` (kept in
`colorMeta` below).  The source's `_ => unimplemented!()` arm is
unreachable on this closed union. -/
def colorToken : Color → List Char
  | Color.Base => "var(--base)".data
  | Color.Healthy => "var(--healthy)".data
  | Color.Error => "var(--error)".data
  | Color.Warn => "var(--warn)".data
  | Color.Info => "var(--info)".data
  | Color.X => "var(--x)".data
  | Color.Y => "var(--y)".data
  | Color.Z => "var(--z)".data
  | Color.Hex code => '#' :: toHex8 code

/-- The `color_meta` closure (lib.rs lines 206–231): appends to `start`
the `meta` object — escaped target, `CARGO_MANIFEST_DIR`/file locator
(leading `.` trimmed before escaping), `line` defaulting to 0 — then the
top-level `col` field and the closing brace. -/
def colorMeta (manifestDir : List Char) (r : VRecord) (start : List Char) : List Char :=
  start ++ ",\"meta\":\x7b\"target\":\"".data ++ escapeDefault r.target
    ++ "\",\"file\":\"".data ++ escapeDefault manifestDir ++ ['/']
    ++ escapeDefault ((r.file.getD []).dropWhile (· = '.'))
    ++ "\",\"line\":".data ++ (Nat.repr (r.line.getD 0)).data
    ++ "\x7d,\"col\":\"".data ++ colorToken r.color ++ "\"\x7d".data

/-- The kind-specific leading part of the WireEvent: the four
`format_args` bodies of the `match record.visual()` in `vlog` (lib.rs
lines 240–253), over the already-escaped `label` and `surface` and the
rendered `size`. -/
def visualStart (label surface size : List Char) : Visual → List Char
  | Visual.Message =>
    "\x7b\"msg\":\"".data ++ label ++ "\",\"surf\":\"".data ++ surface ++ "\"".data
  | Visual.Label x y z alignment =>
    "\x7b\"lbl\":\"".data ++ label ++ "\",\"pos\":[".data ++ x ++ ",".data ++ y
      ++ ",".data ++ z ++ "],\"align\":".data ++ (Nat.repr (alignment % 256)).data
      ++ ",\"surf\":\"".data ++ surface ++ "\",\"size\":".data ++ size
  | Visual.Point x y z style =>
    "\x7b\"lbl\":\"".data ++ label ++ "\",\"pos\":[".data ++ x ++ ",".data ++ y
      ++ ",".data ++ z ++ "],\"style\":\"".data ++ style
      ++ "\",\"surf\":\"".data ++ surface ++ "\",\"size\":".data ++ size
  | Visual.Line x1 y1 z1 x2 y2 z2 style =>
    "\x7b\"lbl\":\"".data ++ label ++ "\",\"pos\":[".data ++ x1 ++ ",".data ++ y1
      ++ ",".data ++ z1 ++ "],\"pos2\":[".data ++ x2 ++ ",".data ++ y2
      ++ ",".data ++ z2 ++ "],\"style\":\"".data ++ style
      ++ "\",\"surf\":\"".data ++ surface ++ "\",\"size\":".data ++ size

/-- `WebVLogger::vlog` (lib.rs lines 199–257): `none` when the filter
rejects the record's target (nothing is encoded or enqueued), otherwise
the WireEvent string handed to `sender.send`. -/
def vlog (lg : WebVLogger) (manifestDir : List Char) (r : VRecord) : Option (List Char) :=
  if !enabled lg r.target then none
  else
    let surface := escapeDefault r.surface
    let label := escapeDefault r.args
    some (colorMeta manifestDir r (visualStart label surface r.size r.visual))

/-- `WebVLogger::clear` (lib.rs lines 258–263): unconditionally the clear
directive handed to `sender.send`; the target filter is not consulted. -/
def clear (lg : WebVLogger) (surface : List Char) : List Char :=
  "\x7b\"clear\":1,\"surf\":\"".data ++ escapeDefault surface ++ "\"\x7d".data

/-! ## Frame Writer (lib.rs lines 368–380) -/

/-- `w`-byte big-endian rendering of `n` (the bytes of
`(n % 2 ^ (8 * w)).to_be_bytes()`). -/
def beBytes (w : Nat) (n : Nat) : List Nat :=
  (List.range w).map fun i => n / 256 ^ (w - 1 - i) % 256

/-- Value of a big-endian byte list. -/
def beVal (bs : List Nat) : Nat := bs.foldl (fun a b => a * 256 + b) 0

/-- The bytes the streaming loop writes for one payload (lib.rs lines
368–380): first byte `0x81`, the RFC 6455 length field chosen by
`msg.len()`, then the payload bytes.  Casts `as u8` / `as u16` / `as u64`
appear as the corresponding truncations. -/
def frameBytes (payload : List Nat) : List Nat :=
  if payload.length < 126 then
    0x81 :: payload.length % 256 :: payload
  else if payload.length ≤ 65535 then
    0x81 :: 126 :: (beBytes 2 payload.length ++ payload)
  else
    0x81 :: 127 :: (beBytes 8 payload.length ++ payload)

/-! ## The handshake accept token (lib.rs lines 330–334): SHA-1 and
base64, translated from the `sha1` / `base64` crates' published
algorithms (RFC 3174 / RFC 4648) as the source uses them. -/

/-- Left-rotate a 32-bit word. -/
def rotl32 (x n : Nat) : Nat := ((x <<< n) % 2 ^ 32) ||| (x >>> (32 - n))

/-- SHA-1 padding: `0x80`, zeros to 56 mod 64, 8-byte big-endian bit length. -/
def sha1PadBytes (msg : List Nat) : List Nat :=
  msg ++ 0x80 :: List.replicate ((55 + 64 - msg.length % 64) % 64) 0
    ++ beBytes 8 (8 * msg.length)

/-- Big-endian 32-bit words of a byte list (groups of four). -/
def toWords : List Nat → List Nat
  | b0 :: b1 :: b2 :: b3 :: rest =>
    (((b0 * 256 + b1) * 256 + b2) * 256 + b3) :: toWords rest
  | _ => []

/-- Split into 64-byte chunks (fuel-structural; fuel ≥ length suffices). -/
def chunks64F : Nat → List Nat → List (List Nat)
  | 0, _ => []
  | fuel + 1, l => if l = [] then [] else l.take 64 :: chunks64F fuel (l.drop 64)

/-- Split a byte list into 64-byte chunks. -/
def chunks64 (l : List Nat) : List (List Nat) := chunks64F l.length l

/-- Extend the (reversed) message schedule by one word:
`w[i] = rotl1 (w[i-3] ^ w[i-8] ^ w[i-14] ^ w[i-16])`. -/
def extSched : Nat → List Nat → List Nat
  | 0, w => w
  | fuel + 1, w =>
    extSched fuel
      (rotl32 ((w.getD 2 0) ^^^ (w.getD 7 0) ^^^ (w.getD 13 0) ^^^ (w.getD 15 0)) 1 :: w)

/-- The 80-word message schedule of one 64-byte block. -/
def schedule (block : List Nat) : List Nat := (extSched 64 (toWords block).reverse).reverse

/-- SHA-1 round function `f` per round index. -/
def sha1F (i b c d : Nat) : Nat :=
  if i < 20 then (b &&& c) ||| ((b ^^^ 0xFFFFFFFF) &&& d)
  else if i < 40 then b ^^^ c ^^^ d
  else if i < 60 then (b &&& c) ||| (b &&& d) ||| (c &&& d)
  else b ^^^ c ^^^ d

/-- SHA-1 round constant per round index. -/
def sha1K (i : Nat) : Nat :=
  if i < 20 then 0x5A827999 else if i < 40 then 0x6ED9EBA1
  else if i < 60 then 0x8F1BBCDC else 0xCA62C1D6

/-- One SHA-1 round on state `(i, a, b, c, d, e)` and schedule word `w`. -/
def sha1Round : (Nat × Nat × Nat × Nat × Nat × Nat) → Nat → (Nat × Nat × Nat × Nat × Nat × Nat)
  | (i, a, b, c, d, e), w =>
    (i + 1, (rotl32 a 5 + sha1F i b c d + e + sha1K i + w) % 2 ^ 32, a, rotl32 b 30, c, d)

/-- Process one 64-byte block into the running hash state. -/
def sha1Block : (Nat × Nat × Nat × Nat × Nat) → List Nat → (Nat × Nat × Nat × Nat × Nat)
  | (h0, h1, h2, h3, h4), block =>
    match (schedule block).foldl sha1Round (0, h0, h1, h2, h3, h4) with
    | (_, a, b, c, d, e) =>
      ((h0 + a) % 2 ^ 32, (h1 + b) % 2 ^ 32, (h2 + c) % 2 ^ 32,
       (h3 + d) % 2 ^ 32, (h4 + e) % 2 ^ 32)

/-- SHA-1 digest (20 bytes) of a byte list. -/
def sha1 (msg : List Nat) : List Nat :=
  match (chunks64 (sha1PadBytes msg)).foldl sha1Block
      (0x67452301, 0xEFCDAB89, 0x98BADCFE, 0x10325476, 0xC3D2E1F0) with
  | (h0, h1, h2, h3, h4) =>
    beBytes 4 h0 ++ beBytes 4 h1 ++ beBytes 4 h2 ++ beBytes 4 h3 ++ beBytes 4 h4

/-- The standard base64 alphabet. -/
def b64Alphabet : List Char :=
  "ABCDEFGHIJKLMNOPQRSTUVWXYZabcdefghijklmnopqrstuvwxyz0123456789+/".data

/-- Index into the base64 alphabet. -/
def b64Char (n : Nat) : Char := b64Alphabet.getD n 'A'

/-- RFC 4648 base64 encoding with `=` padding (`BASE64_STANDARD.encode`). -/
def base64Encode : List Nat → List Char
  | b0 :: b1 :: b2 :: rest =>
    b64Char (b0 / 4) :: b64Char (b0 % 4 * 16 + b1 / 16) ::
    b64Char (b1 % 16 * 4 + b2 / 64) :: b64Char (b2 % 64) :: base64Encode rest
  | [b0, b1] => [b64Char (b0 / 4), b64Char (b0 % 4 * 16 + b1 / 16), b64Char (b1 % 16 * 4), '=']
  | [b0] => [b64Char (b0 / 4), b64Char (b0 % 4 * 16), '=', '=']
  | [] => []

/-- UTF-8 encoding of one scalar value (Rust `String` bytes). -/
def utf8Bytes (c : Char) : List Nat :=
  if c.toNat < 0x80 then [c.toNat]
  else if c.toNat < 0x800 then [0xC0 + c.toNat / 64, 0x80 + c.toNat % 64]
  else if c.toNat < 0x10000 then
    [0xE0 + c.toNat / 4096, 0x80 + c.toNat / 64 % 64, 0x80 + c.toNat % 64]
  else
    [0xF0 + c.toNat / 262144, 0x80 + c.toNat / 4096 % 64,
     0x80 + c.toNat / 64 % 64, 0x80 + c.toNat % 64]

/-- UTF-8 bytes of a string. -/
def utf8Encode (s : List Char) : List Nat := s.flatMap utf8Bytes

/-- The fixed RFC 6455 GUID appended to the client key (lib.rs line 331). -/
def wsGuid : List Char := "258EAFA5-E914-47DA-95CA-C5AB0DC85B11".data

/-- The `Sec-WebSocket-Accept` token (lib.rs lines 330–334):
base64 of the SHA-1 digest of the key concatenated with the GUID. -/
def acceptToken (key : List Char) : List Char :=
  base64Encode (sha1 (utf8Encode (key ++ wsGuid)))

/-! ## Handshake decision (lib.rs lines 313–396) -/

/-- Rust `str::split_once(' ')`: text before and after the first space,
or `none` when no space occurs. -/
def splitOnceSp : List Char → Option (List Char × List Char)
  | [] => none
  | c :: rest =>
    if c = ' ' then some ([], rest)
    else (splitOnceSp rest).map fun p => (c :: p.1, p.2)

/-- The request-line split of lib.rs lines 337–338:
`(get, rest) = split_once(' ').unwrap_or(("", ""))` then
`(path, http) = rest.split_once(' ').unwrap_or(("", ""))`,
giving `(method, path, version)`. -/
def reqLineParts (req : List Char) : List Char × List Char × List Char :=
  let gr := (splitOnceSp req).getD ([], [])
  let ph := (splitOnceSp gr.2).getD ([], [])
  (gr.1, ph.1, ph.2)

/-- Rust `str::strip_prefix`: the remainder when `pfx` leads `l`. -/
def stripTag (pfx l : List Char) : Option (List Char) :=
  if pfx.isPrefixOf l then some (l.drop pfx.length) else none

/-- The header name scanned for (lib.rs line 330), including its colon
and space. -/
def headerKeyTag : List Char := "Sec-WebSocket-Key: ".data

/-- The header-reading loop of lib.rs lines 320–336 over the trimmed
lines of the inbound request (end of the list models a zero-byte
`read_line`): stops at the first empty line, takes the first line as the
request line, and computes the accept token from every later
`Sec-WebSocket-Key` header (the last one wins).  Returns
`(http_request, key_back)`. -/
def scanRequest : List (List Char) → List Char → List Char → List Char × List Char
  | [], req, key => (req, key)
  | l :: ls, req, key =>
    if l = [] then (req, key)
    else if req = [] then scanRequest ls l key
    else
      match stripTag headerKeyTag l with
      | some k => scanRequest ls req (acceptToken k)
      | none => scanRequest ls req key

/-- The four responses the handler can choose among (lib.rs lines
339–392). -/
inductive HsResponse where
  | Upgrade (key : List Char)
  | Page
  | NotFound
  | BadRequest
deriving DecidableEq

/-- The handshake decision tree of lib.rs lines 339–392 on the collected
request line and accept token: non-GET or non-HTTP/1.1 → 400; else a
computed (nonempty) accept token → 101 upgrade; else path `/` → the
static page; else 404. -/
def handshake (req keyBack : List Char) : HsResponse :=
  let parts := reqLineParts req
  if parts.1 = "GET".data ∧ parts.2.2 = "HTTP/1.1".data then
    if keyBack ≠ [] then HsResponse.Upgrade keyBack
    else if parts.2.1 = "/".data then HsResponse.Page
    else HsResponse.NotFound
  else HsResponse.BadRequest

/-- The 101 response bytes (lib.rs line 347). -/
def response101 (key : List Char) : List Char :=
  "HTTP/1.1 101 Switching Protocols\r\nUpgrade: websocket\r\nConnection: Upgrade\r\nSec-WebSocket-Accept: ".data
    ++ key ++ "\r\n\r\n".data

/-- The response bytes per decision (lib.rs lines 347, 383–384, 386–388,
391); `site` stands for the opaque `include_bytes!("site.html")` asset. -/
def responseFor (site : List Char) : HsResponse → List Char
  | HsResponse.Upgrade key => response101 key
  | HsResponse.Page => "HTTP/1.1 200 OK\r\n\r\n".data ++ site
  | HsResponse.NotFound =>
    "HTTP/1.1 404 NOT FOUND\r\n\r\n<html><body>Path not found</body></html>".data
  | HsResponse.BadRequest => "HTTP/1.1 400 BAD REQUEST\r\n\r\n".data

/-- The Rendezvous flag after the handshake: entering the upgrade branch
stores `true` (lib.rs lines 342–346); every other branch leaves the flag
alone. -/
def flagAfterHandshake (resp : HsResponse) (flag : Bool) : Bool :=
  match resp with
  | HsResponse.Upgrade _ => true
  | _ => flag

/-- `wait_for_connection` (lib.rs lines 294–297) blocks while the
Rendezvous flag is false (`wait_while(lock, |v| !*v)`) and returns as
soon as it is true. -/
def waitBlocks (flag : Bool) : Bool := !flag

/-! ## The streaming loop (lib.rs lines 350–381) -/

/-- One successful non-blocking `read` inside the close-detection loop:
either a nonempty chunk of bytes or a zero-byte read (peer hung up).  A
`WouldBlock` error ends that inner loop and is modelled by the end of the
round's read list. -/
inductive ReadChunk where
  | bytes (bs : List Nat)
  | hangup

/-- Whether one read result makes lib.rs line 356 terminate the session:
a zero-byte read, or any byte `0x88` (close opcode) in the chunk. -/
def chunkTerminal : ReadChunk → Bool
  | ReadChunk.hangup => true
  | ReadChunk.bytes bs => bs.any (· = 0x88)

/-- One iteration of the `rx.recv()` loop: the reads drained before the
send, the received payload's bytes, and whether the frame's
write/flush succeeds. -/
structure StreamRound where
  reads : List ReadChunk
  msg : List Nat
  writeOk : Bool

/-- What a streaming session leaves behind: the Rendezvous flag, the
handler's result (`error` models an `io::Error` propagated by `?`),
the frame bytes written, and whether the condition variable was
broadcast on the way out. -/
structure StreamOutcome where
  flag : Bool
  result : Except Unit Unit
  sent : List Nat
  broadcast : Bool

/-- The streaming loop of lib.rs lines 351–381.  Exhausting the round
list models `rx.recv()` failing (all senders dropped): the loop ends and
the handler returns `Ok` without touching the flag.  A terminal read
clears the flag, broadcasts, and returns `Ok`.  A failed write/flush
propagates `Err` without touching the flag or broadcasting. -/
def runStreaming : List StreamRound → Bool → StreamOutcome
  | [], flag => ⟨flag, Except.ok (), [], false⟩
  | round :: rest, flag =>
    if round.reads.any chunkTerminal then ⟨false, Except.ok (), [], true⟩
    else if !round.writeOk then ⟨flag, Except.error (), [], false⟩
    else
      let o := runStreaming rest flag
      ⟨o.flag, o.result, frameBytes round.msg ++ o.sent, o.broadcast⟩

/-- One accepted connection: the trimmed request lines, then (if the
handshake upgrades) the streaming rounds. -/
structure Conn where
  lines : List (List Char)
  rounds : List StreamRound

/-- `handle_connection` (lib.rs lines 313–396) at the level the lifecycle
claims need: scan the request, decide; an upgrade sets the flag, notifies,
and runs the streaming loop; the plain HTTP branches leave the flag
alone and return `Ok`. -/
def handleConnection (c : Conn) (flag : Bool) : Bool × Except Unit Unit :=
  let rk := scanRequest c.lines [] []
  match handshake rk.1 rk.2 with
  | HsResponse.Upgrade _ =>
    let o := runStreaming c.rounds true
    (o.flag, o.result)
  | _ => (flag, Except.ok ())

/-- `server_loop` (lib.rs lines 299–311): handle each accepted connection
in turn; an `Err` from the handler is answered with a 500 response and
the loop keeps accepting either way.  Returns the final Rendezvous
flag. -/
def serverLoop : List Conn → Bool → Bool
  | [], flag => flag
  | c :: cs, flag => serverLoop cs (handleConnection c flag).1

/-! ## Theorems -/

/-- Bytes produced by `beBytes` are below 256. -/
theorem beBytes_lt (w n : Nat) : ∀ b ∈ beBytes w n, b < 256 := by
  intro b hb
  simp only [beBytes, List.mem_map] at hb
  obtain ⟨i, -, rfl⟩ := hb
  exact Nat.mod_lt _ (by norm_num)

/-- `beBytes w n` has `w` bytes. -/
theorem beBytes_length (w n : Nat) : (beBytes w n).length = w := by
  simp [beBytes]

/-- Decoding the 2-byte big-endian field recovers values up to 65535. -/
theorem beVal_beBytes_two (n : Nat) (h : n ≤ 65535) : beVal (beBytes 2 n) = n := by
  have h2 : List.range 2 = [0, 1] := rfl
  simp only [beBytes, beVal, h2, List.map_cons, List.map_nil, List.foldl_cons, List.foldl_nil]
  norm_num
  omega

/-- Decoding the 8-byte big-endian field recovers values below `2 ^ 64`. -/
theorem beVal_beBytes_eight (n : Nat) (h : n < 2 ^ 64) : beVal (beBytes 8 n) = n := by
  have h8 : List.range 8 = [0, 1, 2, 3, 4, 5, 6, 7] := rfl
  simp only [beBytes, beVal, h8, List.map_cons, List.map_nil, List.foldl_cons, List.foldl_nil]
  norm_num
  omega

/-- Claim C3: the bytes written for one streamed payload are the first
byte `0x81`, then the RFC 6455 length field — a single byte equal to the
length for lengths up to 125, the byte 126 plus a 2-byte big-endian
length for lengths 126–65535, the byte 127 plus an 8-byte big-endian
length above that — then the raw payload bytes. -/
theorem frame_length_encoding (p : List Nat) :
    (p.length ≤ 125 → frameBytes p = 0x81 :: p.length :: p) ∧
    (126 ≤ p.length → p.length ≤ 65535 →
      frameBytes p = 0x81 :: 126 :: (beBytes 2 p.length ++ p) ∧
      (beBytes 2 p.length).length = 2 ∧ (∀ b ∈ beBytes 2 p.length, b < 256) ∧
      beVal (beBytes 2 p.length) = p.length) ∧
    (65535 < p.length → p.length < 2 ^ 64 →
      frameBytes p = 0x81 :: 127 :: (beBytes 8 p.length ++ p) ∧
      (beBytes 8 p.length).length = 8 ∧ (∀ b ∈ beBytes 8 p.length, b < 256) ∧
      beVal (beBytes 8 p.length) = p.length) := by
  refine ⟨fun h => ?_, fun h1 h2 => ?_, fun h1 h2 => ?_⟩
  · rw [frameBytes, if_pos (by omega)]
    rw [Nat.mod_eq_of_lt (by omega)]
  · rw [frameBytes, if_neg (by omega), if_pos (by omega)]
    exact ⟨rfl, beBytes_length 2 _, beBytes_lt 2 _, beVal_beBytes_two _ h2⟩
  · rw [frameBytes, if_neg (by omega), if_neg (by omega)]
    exact ⟨rfl, beBytes_length 8 _, beBytes_lt 8 _, beVal_beBytes_eight _ h2⟩

/-- Witness for C3 at the claim's boundary payloads: 125, 126 and 65536
bytes. -/
theorem frame_length_encoding_witness :
    frameBytes (List.replicate 125 7) = 0x81 :: 125 :: List.replicate 125 7
    ∧ frameBytes (List.replicate 126 7) = 0x81 :: 126 :: (beBytes 2 126 ++ List.replicate 126 7)
    ∧ beBytes 2 126 = [0, 126]
    ∧ frameBytes (List.replicate 65536 7)
      = 0x81 :: 127 :: (beBytes 8 65536 ++ List.replicate 65536 7)
    ∧ beBytes 8 65536 = [0, 0, 0, 0, 0, 1, 0, 0] := by
  have h1 := (frame_length_encoding (List.replicate 125 7)).1
  have h2 := (frame_length_encoding (List.replicate 126 7)).2.1
  have h3 := (frame_length_encoding (List.replicate 65536 7)).2.2
  simp only [List.length_replicate] at h1 h2 h3
  exact ⟨h1 (by norm_num), (h2 (by norm_num) (by norm_num)).1, by decide,
    (h3 (by norm_num) (by norm_num)).1, by decide⟩

/-- Claim C2: `enabled` is true exactly when the whitelist is empty or
some entry is an ordinary string prefix of the target. -/
theorem enabled_iff_prefix_whitelist (lg : WebVLogger) (t : List Char) :
    enabled lg t = true ↔ lg.targets = [] ∨ ∃ p ∈ lg.targets, p <+: t := by
  simp [enabled, List.isEmpty_iff, List.any_eq_true, List.isPrefixOf_iff_prefix]

/-- The SHA-1 digest always has 20 bytes. -/
theorem sha1_length (msg : List Nat) : (sha1 msg).length = 20 := by
  rw [sha1]
  rcases (chunks64 (sha1PadBytes msg)).foldl sha1Block
      (0x67452301, 0xEFCDAB89, 0x98BADCFE, 0x10325476, 0xC3D2E1F0) with
    ⟨h0, h1, h2, h3, h4⟩
  simp [beBytes_length]

set_option maxRecDepth 100000 in
/-- Claim C4: the accept token is the base64 of the 20-byte SHA-1 digest
of the key concatenated with the RFC 6455 GUID, and the RFC's reference
key yields the reference token. -/
theorem handshake_accept_token :
    acceptToken "dGhlIHNhbXBsZSBub25jZQ==".data = "s3pPLMBiTxaQ9kYGzzhZRbK+xOo=".data
    ∧ (∀ k : List Char, acceptToken k = base64Encode (sha1 (utf8Encode (k ++ wsGuid)))
      ∧ (sha1 (utf8Encode (k ++ wsGuid))).length = 20) := by
  exact ⟨by decide, fun k => ⟨rfl, sha1_length _⟩⟩

/-- Claim C10: `clear` enqueues the clear directive for every logger
state — including a nonempty whitelist rejecting everything — while
`vlog` enqueues nothing for a filtered-out record and encodes only
records the filter passes. -/
theorem clear_bypasses_filter :
    (∀ (lg : WebVLogger) (surface : List Char),
      clear lg surface
        = "\x7b\"clear\":1,\"surf\":\"".data ++ escapeDefault surface ++ "\"\x7d".data
      ∧ clear lg surface = clear ⟨[]⟩ surface)
    ∧ (∀ (lg : WebVLogger) (md : List Char) (r : VRecord),
        enabled lg r.target = false → vlog lg md r = none)
    ∧ (∀ (lg : WebVLogger) (md : List Char) (r : VRecord),
        enabled lg r.target = true → (vlog lg md r).isSome = true) := by
  refine ⟨fun lg surface => ⟨rfl, rfl⟩, fun lg md r h => ?_, fun lg md r h => ?_⟩
  · rw [vlog, h]
    rfl
  · rw [vlog, h]
    rfl

/-- Witness for C10: a whitelist rejecting every target still clears,
and `vlog` drops a record whose target misses the whitelist. -/
theorem clear_bypasses_filter_witness :
    clear ⟨["x".data]⟩ "s".data
      = "\x7b\"clear\":1,\"surf\":\"".data ++ escapeDefault "s".data ++ "\"\x7d".data
    ∧ vlog ⟨["x".data]⟩ "m".data
        ⟨"y".data, none, none, "s".data, "1".data, Color.Base, Visual.Message, "a".data⟩ = none
    ∧ (vlog ⟨["x".data]⟩ "m".data
        ⟨"x::a".data, none, none, "s".data, "1".data, Color.Base, Visual.Message,
          "a".data⟩).isSome = true := by
  exact ⟨(clear_bypasses_filter.1 ⟨["x".data]⟩ "s".data).1,
    clear_bypasses_filter.2.1 _ _ _ (by decide),
    clear_bypasses_filter.2.2 _ _ _ (by decide)⟩

/-! ### Losslessness of `escape_default` against the literal parser -/

/-- Hex digit characters decode to their value. -/
theorem hexVal_hexDigitChar (d : Nat) (h : d < 16) : hexVal? (hexDigitChar d) = some d := by
  interval_cases d <;> decide

/-- Hex digit characters are accepted by the scanner. -/
theorem isHex_hexDigitChar (d : Nat) (h : d < 16) : isHexDigitCh (hexDigitChar d) = true := by
  simp [isHexDigitCh, hexVal_hexDigitChar d h]

/-- Every character `toHexRevF` emits is a hex digit character. -/
theorem toHexRevF_digits (fuel : Nat) :
    ∀ n, n < fuel → ∀ c ∈ toHexRevF fuel n, ∃ d, d < 16 ∧ c = hexDigitChar d := by
  induction fuel with
  | zero => intro n h; omega
  | succ f ih =>
    intro n h c hc
    simp only [toHexRevF] at hc
    by_cases h16 : n < 16
    · rw [if_pos h16] at hc
      simp only [List.mem_singleton] at hc
      exact ⟨n, h16, hc⟩
    · rw [if_neg h16] at hc
      rcases List.mem_cons.1 hc with rfl | hc
      · exact ⟨n % 16, Nat.mod_lt _ (by omega), rfl⟩
      · exact ih (n / 16) (by omega) c hc

/-- `toHexRevF` emits at least one digit. -/
theorem toHexRevF_ne_nil (fuel n : Nat) (h : n < fuel) : toHexRevF fuel n ≠ [] := by
  cases fuel with
  | zero => omega
  | succ f =>
    simp only [toHexRevF]
    split <;> simp

/-- Reading the emitted minimal hex digits back gives the value. -/
theorem hexValList_toHexRevF (fuel : Nat) :
    ∀ n, n < fuel → hexValList (toHexRevF fuel n).reverse = n := by
  induction fuel with
  | zero => intro n h; omega
  | succ f ih =>
    intro n h
    simp only [toHexRevF]
    by_cases h16 : n < 16
    · rw [if_pos h16]
      simp [hexValList, hexVal_hexDigitChar n h16]
    · rw [if_neg h16]
      rw [List.reverse_cons, hexValList, List.foldl_append]
      have hv := ih (n / 16) (by omega)
      rw [hexValList] at hv
      rw [hv]
      simp [hexVal_hexDigitChar (n % 16) (Nat.mod_lt _ (by omega))]
      omega

/-- Scanning a run of accepted characters followed by a rejected one
takes exactly the run. -/
theorem takeWhile_append_all (p : Char → Bool) (l1 : List Char) (x : Char) (l2 : List Char)
    (h1 : ∀ c ∈ l1, p c = true) (h2 : p x = false) :
    (l1 ++ x :: l2).takeWhile p = l1 ∧ (l1 ++ x :: l2).dropWhile p = x :: l2 := by
  induction l1 with
  | nil => simp [List.takeWhile_cons, List.dropWhile_cons, h2]
  | cons a l ih =>
    have ha := h1 a (List.mem_cons_self a l)
    have hrec := ih fun c hc => h1 c (List.mem_cons_of_mem a hc)
    simp only [List.cons_append, List.takeWhile_cons, List.dropWhile_cons, ha]
    simp [hrec.1, hrec.2]

/-- The scanner on a `\u` escape with braced hex digits: decodes the hex
value and hands the tail to the continuation. -/
theorem parseLitF_unicode (f : Nat) (ds : List Char) (t : List Char)
    (hds : ∀ d ∈ ds, isHexDigitCh d = true) (hne : ds ≠ []) :
    parseLitF (f + 1) ('\\' :: 'u' :: Char.ofNat 123 :: (ds ++ Char.ofNat 125 :: t))
      = consR (Char.ofNat (hexValList ds)) (parseLitF f t) := by
  have htdw := takeWhile_append_all isHexDigitCh ds (Char.ofNat 125) t hds (by decide)
  simp [parseLitF, htdw.1, htdw.2, hne]

/-- One escaped character is one token of the literal scanner: with one
unit of fuel it decodes back to the character and hands the tail to the
continuation. -/
theorem parseLitF_escapeChar (c : Char) (f : Nat) (t : List Char) :
    parseLitF (f + 1) (escapeChar c ++ t) = consR c (parseLitF f t) := by
  rw [escapeChar]
  split_ifs with h1 h2 h3 h4 h5 h6 h7
  · subst h1; rfl
  · subst h2; rfl
  · subst h3; rfl
  · subst h4; rfl
  · subst h5; rfl
  · subst h6; rfl
  · simp only [List.singleton_append, parseLitF, if_neg h6, if_neg h4]
    rfl
  · -- `\u` + braced minimal hex
    have hdig : ∀ d ∈ toHexMin c.toNat, isHexDigitCh d = true := by
      intro d hd
      rw [toHexMin, List.mem_reverse] at hd
      obtain ⟨k, hk, rfl⟩ := toHexRevF_digits (c.toNat + 1) c.toNat (Nat.lt_succ_self _) d hd
      exact isHex_hexDigitChar k hk
    have hne : toHexMin c.toNat ≠ [] :=
      fun h => (toHexRevF_ne_nil (c.toNat + 1) c.toNat (Nat.lt_succ_self _))
        (by simpa [toHexMin] using h)
    have hval : hexValList (toHexMin c.toNat) = c.toNat :=
      hexValList_toHexRevF (c.toNat + 1) c.toNat (Nat.lt_succ_self _)
    have hmain := parseLitF_unicode f (toHexMin c.toNat) t hdig hne
    rw [hval, Char.ofNat_toNat] at hmain
    simpa [List.cons_append, List.append_assoc] using hmain

/-- `escapeChar` emits at least one character. -/
theorem escapeChar_length_pos (c : Char) : 1 ≤ (escapeChar c).length := by
  rw [escapeChar]
  split_ifs <;> simp

/-- Fuel-general escape/parse roundtrip: scanning the escaped text
followed by a closing quote and arbitrary residue reconstructs the
original text exactly and stops exactly at the quote. -/
theorem parseLitF_escape (s : List Char) : ∀ (fuel : Nat) (rest : List Char),
    (escapeDefault s).length + rest.length + 1 ≤ fuel →
    parseLitF fuel (escapeDefault s ++ '\"' :: rest) = some (s, rest) := by
  induction s with
  | nil =>
    intro fuel rest h
    simp only [escapeDefault, List.flatMap_nil, List.length_nil, List.nil_append] at h ⊢
    cases fuel with
    | zero => omega
    | succ f => rfl
  | cons c s ih =>
    intro fuel rest h
    have hsplit : escapeDefault (c :: s) = escapeChar c ++ escapeDefault s := by
      simp [escapeDefault]
    rw [hsplit] at h ⊢
    have hc1 := escapeChar_length_pos c
    rw [List.length_append] at h
    cases fuel with
    | zero => omega
    | succ f =>
      rw [List.append_assoc, parseLitF_escapeChar]
      rw [ih f rest (by omega)]
      rfl

/-- The escape/parse roundtrip with the natural fuel. -/
theorem parseLit_escape (s rest : List Char) :
    parseLit (escapeDefault s ++ '\"' :: rest) = some (s, rest) := by
  rw [parseLit]
  exact parseLitF_escape s _ rest (by simp only [List.length_append, List.length_cons]; omega)

/-- Escaping distributes over concatenation. -/
theorem escapeDefault_append (a b : List Char) :
    escapeDefault (a ++ b) = escapeDefault a ++ escapeDefault b := by
  simp [escapeDefault]

/-- A slash is its own escape. -/
theorem escapeDefault_slash_cons (b : List Char) :
    escapeDefault ('/' :: b) = '/' :: escapeDefault b := by
  have h : escapeChar '/' = ['/'] := by decide
  simp [escapeDefault, h]

/-- In every visual kind the escaped label text and the escaped surface
name sit in the start string immediately followed by a closing quote. -/
theorem visualStart_shape (label surface size : List Char) (v : Visual) :
    (∃ pre mid, visualStart label surface size v = pre ++ (label ++ '\"' :: mid))
    ∧ ∃ pre2 mid2, visualStart label surface size v = pre2 ++ (surface ++ '\"' :: mid2) := by
  cases v with
  | Message =>
    exact ⟨⟨"\x7b\"msg\":\"".data, ",\"surf\":\"".data ++ surface ++ "\"".data,
        by simp [visualStart, List.append_assoc]⟩,
      ⟨"\x7b\"msg\":\"".data ++ label ++ "\",\"surf\":\"".data, [],
        by simp [visualStart, List.append_assoc]⟩⟩
  | Label x y z a =>
    exact ⟨⟨"\x7b\"lbl\":\"".data,
        ",\"pos\":[".data ++ x ++ ",".data ++ y ++ ",".data ++ z ++ "],\"align\":".data
          ++ (Nat.repr (a % 256)).data ++ ",\"surf\":\"".data ++ surface
          ++ "\",\"size\":".data ++ size,
        by simp [visualStart, List.append_assoc]⟩,
      ⟨"\x7b\"lbl\":\"".data ++ label ++ "\",\"pos\":[".data ++ x ++ ",".data ++ y
          ++ ",".data ++ z ++ "],\"align\":".data ++ (Nat.repr (a % 256)).data
          ++ ",\"surf\":\"".data,
        ",\"size\":".data ++ size,
        by simp [visualStart, List.append_assoc]⟩⟩
  | Point x y z style =>
    exact ⟨⟨"\x7b\"lbl\":\"".data,
        ",\"pos\":[".data ++ x ++ ",".data ++ y ++ ",".data ++ z ++ "],\"style\":\"".data
          ++ style ++ "\",\"surf\":\"".data ++ surface ++ "\",\"size\":".data ++ size,
        by simp [visualStart, List.append_assoc]⟩,
      ⟨"\x7b\"lbl\":\"".data ++ label ++ "\",\"pos\":[".data ++ x ++ ",".data ++ y
          ++ ",".data ++ z ++ "],\"style\":\"".data ++ style ++ "\",\"surf\":\"".data,
        ",\"size\":".data ++ size,
        by simp [visualStart, List.append_assoc]⟩⟩
  | Line x1 y1 z1 x2 y2 z2 style =>
    exact ⟨⟨"\x7b\"lbl\":\"".data,
        ",\"pos\":[".data ++ x1 ++ ",".data ++ y1 ++ ",".data ++ z1 ++ "],\"pos2\":[".data
          ++ x2 ++ ",".data ++ y2 ++ ",".data ++ z2 ++ "],\"style\":\"".data
          ++ style ++ "\",\"surf\":\"".data ++ surface ++ "\",\"size\":".data ++ size,
        by simp [visualStart, List.append_assoc]⟩,
      ⟨"\x7b\"lbl\":\"".data ++ label ++ "\",\"pos\":[".data ++ x1 ++ ",".data ++ y1
          ++ ",".data ++ z1 ++ "],\"pos2\":[".data ++ x2 ++ ",".data ++ y2 ++ ",".data ++ z2
          ++ "],\"style\":\"".data ++ style ++ "\",\"surf\":\"".data,
        ",\"size\":".data ++ size,
        by simp [visualStart, List.append_assoc]⟩⟩

/-- Claim C1: every free-text field (message/label text, surface, target,
file path) is escaped in the produced WireEvent so that quotes,
backslashes and control characters cannot terminate the quoted field
early or break the object, and losslessly: a standard string-literal scan
of each field, in place in the actual `vlog` and `clear` output, stops
exactly at the field's closing quote and reconstructs the original text.
The label/surface placement holds for every visual kind; the full
four-field parse chain is spelled out on the message kind. -/
theorem escape_lossless_in_wire (lg : WebVLogger) (md surf s rest : List Char) (r : VRecord)
    (he : enabled lg r.target = true) :
    parseLit (escapeDefault s ++ '\"' :: rest) = some (s, rest)
    ∧ (∃ t0, clear lg surf = "\x7b\"clear\":1,\"surf\":\"".data ++ t0
        ∧ parseLit t0 = some (surf, "\x7d".data))
    ∧ (∃ pre mid, vlog lg md r = some (pre ++ (escapeDefault r.args ++ '\"' :: mid)))
    ∧ (∃ pre2 mid2, vlog lg md r = some (pre2 ++ (escapeDefault r.surface ++ '\"' :: mid2)))
    ∧ (∃ start u3 u4,
        vlog lg md r = some (start ++ (",\"meta\":\x7b\"target\":\"".data ++ u3))
        ∧ parseLit u3 = some (r.target, ",\"file\":\"".data ++ u4)
        ∧ parseLit u4 = some (md ++ '/' :: (r.file.getD []).dropWhile (· = '.'),
            ",\"line\":".data ++ (Nat.repr (r.line.getD 0)).data
              ++ "\x7d,\"col\":\"".data ++ colorToken r.color ++ "\"\x7d".data))
    ∧ (r.visual = Visual.Message → ∃ t1 t2 t3 t4,
        vlog lg md r = some ("\x7b\"msg\":\"".data ++ t1)
        ∧ parseLit t1 = some (r.args, ",\"surf\":\"".data ++ t2)
        ∧ parseLit t2 = some (r.surface, ",\"meta\":\x7b\"target\":\"".data ++ t3)
        ∧ parseLit t3 = some (r.target, ",\"file\":\"".data ++ t4)
        ∧ parseLit t4 = some (md ++ '/' :: (r.file.getD []).dropWhile (· = '.'),
            ",\"line\":".data ++ (Nat.repr (r.line.getD 0)).data
              ++ "\x7d,\"col\":\"".data ++ colorToken r.color ++ "\"\x7d".data)) := by
  refine ⟨parseLit_escape s rest, ?_, ?_, ?_, ?_, ?_⟩
  · refine ⟨escapeDefault surf ++ '\"' :: "\x7d".data, ?_, parseLit_escape surf _⟩
    rw [clear]
    simp [List.append_assoc]
  · obtain ⟨pre, mid, hsh⟩ := (visualStart_shape (escapeDefault r.args)
      (escapeDefault r.surface) r.size r.visual).1
    refine ⟨pre, mid ++ ",\"meta\":\x7b\"target\":\"".data ++ escapeDefault r.target
      ++ "\",\"file\":\"".data ++ escapeDefault md ++ ['/']
      ++ escapeDefault ((r.file.getD []).dropWhile (· = '.'))
      ++ "\",\"line\":".data ++ (Nat.repr (r.line.getD 0)).data
      ++ "\x7d,\"col\":\"".data ++ colorToken r.color ++ "\"\x7d".data, ?_⟩
    rw [vlog, he]
    simp only [Bool.not_true, Bool.false_eq_true, if_false]
    rw [hsh, colorMeta]
    simp [List.append_assoc]
  · obtain ⟨pre2, mid2, hsh⟩ := (visualStart_shape (escapeDefault r.args)
      (escapeDefault r.surface) r.size r.visual).2
    refine ⟨pre2, mid2 ++ ",\"meta\":\x7b\"target\":\"".data ++ escapeDefault r.target
      ++ "\",\"file\":\"".data ++ escapeDefault md ++ ['/']
      ++ escapeDefault ((r.file.getD []).dropWhile (· = '.'))
      ++ "\",\"line\":".data ++ (Nat.repr (r.line.getD 0)).data
      ++ "\x7d,\"col\":\"".data ++ colorToken r.color ++ "\"\x7d".data, ?_⟩
    rw [vlog, he]
    simp only [Bool.not_true, Bool.false_eq_true, if_false]
    rw [hsh, colorMeta]
    simp [List.append_assoc]
  · refine ⟨visualStart (escapeDefault r.args) (escapeDefault r.surface) r.size r.visual,
      escapeDefault r.target ++ '\"' :: (",\"file\":\"".data
        ++ (escapeDefault (md ++ '/' :: (r.file.getD []).dropWhile (· = '.')) ++ '\"' ::
          (",\"line\":".data ++ (Nat.repr (r.line.getD 0)).data
            ++ "\x7d,\"col\":\"".data ++ colorToken r.color ++ "\"\x7d".data))),
      _, ?_, parseLit_escape .., parseLit_escape ..⟩
    rw [vlog, he]
    simp only [Bool.not_true, Bool.false_eq_true, if_false]
    rw [colorMeta, escapeDefault_append, escapeDefault_slash_cons]
    simp [List.append_assoc]
  · intro hv
    refine ⟨escapeDefault r.args ++ '\"' :: (",\"surf\":\"".data
        ++ (escapeDefault r.surface ++ '\"' :: (",\"meta\":\x7b\"target\":\"".data
        ++ (escapeDefault r.target ++ '\"' :: (",\"file\":\"".data
        ++ (escapeDefault (md ++ '/' :: (r.file.getD []).dropWhile (· = '.')) ++ '\"' ::
          (",\"line\":".data ++ (Nat.repr (r.line.getD 0)).data
            ++ "\x7d,\"col\":\"".data ++ colorToken r.color ++ "\"\x7d".data))))))),
      _, _, _, ?_, parseLit_escape .., parseLit_escape .., parseLit_escape ..,
      parseLit_escape ..⟩
    rw [vlog, he]
    simp only [Bool.not_true, Bool.false_eq_true, if_false, hv, visualStart]
    rw [colorMeta, escapeDefault_append, escapeDefault_slash_cons]
    simp [List.append_assoc]

/-- Witness for C1: the spec's adversarial message text — a double quote
plus a `<script>` substring — together with quoted surface and target
text round-trips through the actual wire strings. -/
theorem escape_lossless_in_wire_witness :
    parseLit (escapeDefault "a\"<script>\\\né\x01".data ++ '\"' :: "rest".data)
      = some ("a\"<script>\\\né\x01".data, "rest".data)
    ∧ (∃ t0, clear ⟨["x".data]⟩ "su\"rf".data = "\x7b\"clear\":1,\"surf\":\"".data ++ t0
        ∧ parseLit t0 = some ("su\"rf".data, "\x7d".data))
    ∧ ∃ t1 t2 t3 t4,
        vlog ⟨["x".data]⟩ "m".data
            ⟨"x\"y".data, some "src.rs".data, none, "su\"rf".data, "2".data,
              Color.Base, Visual.Message, "a\"<script>b".data⟩
          = some ("\x7b\"msg\":\"".data ++ t1)
        ∧ parseLit t1 = some ("a\"<script>b".data, ",\"surf\":\"".data ++ t2)
        ∧ parseLit t2 = some ("su\"rf".data, ",\"meta\":\x7b\"target\":\"".data ++ t3)
        ∧ parseLit t3 = some ("x\"y".data, ",\"file\":\"".data ++ t4)
        ∧ parseLit t4 = some ("m".data ++ '/' :: ("src.rs".data).dropWhile (· = '.'),
            ",\"line\":".data ++ (Nat.repr 0).data
              ++ "\x7d,\"col\":\"".data ++ colorToken Color.Base ++ "\"\x7d".data) := by
  have h := escape_lossless_in_wire ⟨["x".data]⟩ "m".data "su\"rf".data
    "a\"<script>\\\né\x01".data "rest".data
    ⟨"x\"y".data, some "src.rs".data, none, "su\"rf".data, "2".data,
      Color.Base, Visual.Message, "a\"<script>b".data⟩ (by decide)
  exact ⟨h.1, h.2.1, h.2.2.2.2.2 rfl⟩

/-- The 101 response carries the three required upgrade headers. -/
theorem response101_headers (key : List Char) :
    "Upgrade: websocket\r\n".data <:+: response101 key
    ∧ "Connection: Upgrade\r\n".data <:+: response101 key
    ∧ ("Sec-WebSocket-Accept: ".data ++ key) <:+: response101 key := by
  refine ⟨⟨"HTTP/1.1 101 Switching Protocols\r\n".data,
      "Connection: Upgrade\r\nSec-WebSocket-Accept: ".data ++ key ++ "\r\n\r\n".data, ?_⟩,
    ⟨"HTTP/1.1 101 Switching Protocols\r\nUpgrade: websocket\r\n".data,
      "Sec-WebSocket-Accept: ".data ++ key ++ "\r\n\r\n".data, ?_⟩,
    ⟨"HTTP/1.1 101 Switching Protocols\r\nUpgrade: websocket\r\nConnection: Upgrade\r\n".data,
      "\r\n\r\n".data, ?_⟩⟩
  all_goals simp [response101, List.append_assoc]

/-- Claim C5: the handshake decision — non-GET or non-HTTP/1.1 (including
a malformed or empty request line) is rejected with 400; a computed
accept token upgrades with status 101 carrying the Upgrade, Connection
and Sec-WebSocket-Accept headers and signals the Rendezvous; otherwise
path `/` serves the static page verbatim with 200 and any other path
gets 404. -/
theorem handshake_decision_tree (req keyBack site : List Char) (flag : Bool) :
    ((reqLineParts req).1 ≠ "GET".data ∨ (reqLineParts req).2.2 ≠ "HTTP/1.1".data →
      handshake req keyBack = HsResponse.BadRequest
      ∧ responseFor site (handshake req keyBack) = "HTTP/1.1 400 BAD REQUEST\r\n\r\n".data)
    ∧ (req = [] → handshake req keyBack = HsResponse.BadRequest)
    ∧ ((reqLineParts req).1 = "GET".data → (reqLineParts req).2.2 = "HTTP/1.1".data →
        keyBack ≠ [] →
        handshake req keyBack = HsResponse.Upgrade keyBack
        ∧ flagAfterHandshake (handshake req keyBack) flag = true
        ∧ "Upgrade: websocket\r\n".data <:+: responseFor site (handshake req keyBack)
        ∧ "Connection: Upgrade\r\n".data <:+: responseFor site (handshake req keyBack)
        ∧ ("Sec-WebSocket-Accept: ".data ++ keyBack)
            <:+: responseFor site (handshake req keyBack))
    ∧ ((reqLineParts req).1 = "GET".data → (reqLineParts req).2.2 = "HTTP/1.1".data →
        keyBack = [] → (reqLineParts req).2.1 = "/".data →
        handshake req keyBack = HsResponse.Page
        ∧ responseFor site (handshake req keyBack)
          = "HTTP/1.1 200 OK\r\n\r\n".data ++ site)
    ∧ ((reqLineParts req).1 = "GET".data → (reqLineParts req).2.2 = "HTTP/1.1".data →
        keyBack = [] → (reqLineParts req).2.1 ≠ "/".data →
        handshake req keyBack = HsResponse.NotFound) := by
  refine ⟨fun h => ?_, fun h => ?_, fun h1 h2 h3 => ?_, fun h1 h2 h3 h4 => ?_,
    fun h1 h2 h3 h4 => ?_⟩
  · have hh : handshake req keyBack = HsResponse.BadRequest := by
      simp only [handshake]
      rw [if_neg (by tauto)]
    exact ⟨hh, by rw [hh]; rfl⟩
  · subst h
    simp only [handshake]
    rw [if_neg (by decide)]
  · have hh : handshake req keyBack = HsResponse.Upgrade keyBack := by
      simp only [handshake]
      rw [if_pos ⟨h1, h2⟩, if_pos h3]
    refine ⟨hh, by rw [hh]; rfl, ?_, ?_, ?_⟩ <;> rw [hh]
    · exact (response101_headers keyBack).1
    · exact (response101_headers keyBack).2.1
    · exact (response101_headers keyBack).2.2
  · have hh : handshake req keyBack = HsResponse.Page := by
      simp only [handshake]
      rw [if_pos ⟨h1, h2⟩, if_neg (by simp [h3]), if_pos h4]
    exact ⟨hh, by rw [hh]; rfl⟩
  · have hh : handshake req keyBack = HsResponse.NotFound := by
      simp only [handshake]
      rw [if_pos ⟨h1, h2⟩, if_neg (by simp [h3]), if_neg h4]
    exact hh

/-- Witness for C5: one request per branch — a POST is rejected, a keyed
GET upgrades with the three headers, a bare GET for `/` serves the page,
and a bare GET elsewhere gets 404. -/
theorem handshake_decision_tree_witness :
    handshake "POST / HTTP/1.1".data "k".data = HsResponse.BadRequest
    ∧ handshake "GET / HTTP/1.1".data "k".data = HsResponse.Upgrade "k".data
    ∧ "Upgrade: websocket\r\n".data
        <:+: responseFor "site".data (handshake "GET / HTTP/1.1".data "k".data)
    ∧ handshake "GET / HTTP/1.1".data [] = HsResponse.Page
    ∧ responseFor "site".data (handshake "GET / HTTP/1.1".data [])
      = "HTTP/1.1 200 OK\r\n\r\n".data ++ "site".data
    ∧ handshake "GET /other HTTP/1.1".data [] = HsResponse.NotFound := by
  refine ⟨(handshake_decision_tree "POST / HTTP/1.1".data "k".data "site".data true).1
      (by decide) |>.1, ?_, ?_, ?_, ?_, ?_⟩
  · exact ((handshake_decision_tree "GET / HTTP/1.1".data "k".data "site".data true).2.2.1
      (by decide) (by decide) (by decide)).1
  · exact ((handshake_decision_tree "GET / HTTP/1.1".data "k".data "site".data true).2.2.1
      (by decide) (by decide) (by decide)).2.2.1
  · exact ((handshake_decision_tree "GET / HTTP/1.1".data [] "site".data true).2.2.2.1
      (by decide) (by decide) rfl (by decide)).1
  · exact ((handshake_decision_tree "GET / HTTP/1.1".data [] "site".data true).2.2.2.1
      (by decide) (by decide) rfl (by decide)).2
  · exact (handshake_decision_tree "GET /other HTTP/1.1".data [] "site".data true).2.2.2.2
      (by decide) (by decide) rfl (by decide)

/-- Counterexample to claim C6 as stated: in the actual WireEvent the
`col` field is NOT embedded in the `meta` object.  On a concrete record
the produced string splits as prefix ++ metaObject ++ rest, where the
brace-delimited `meta` object (which contains no inner closing brace)
has no `col` key, and the `col` field sits in the rest, after the meta
object's closing brace. -/
theorem col_outside_meta_counterexample :
    vlog ⟨[]⟩ "m".data
        ⟨"t".data, none, none, "s".data, "1".data, Color.Base, Visual.Message, "a".data⟩
      = some ("\x7b\"msg\":\"a\",\"surf\":\"s\",\"meta\":".data
          ++ "\x7b\"target\":\"t\",\"file\":\"m/\",\"line\":0\x7d".data
          ++ ",\"col\":\"var(--base)\"\x7d".data)
    ∧ ("\x7b\"target\":\"t\",\"file\":\"m/\",\"line\":0\x7d".data).head? = some (Char.ofNat 123)
    ∧ ("\x7b\"target\":\"t\",\"file\":\"m/\",\"line\":0\x7d".data).getLast? = some (Char.ofNat 125)
    ∧ (("\x7b\"target\":\"t\",\"file\":\"m/\",\"line\":0\x7d".data).dropLast).all
        (fun c => c ≠ Char.ofNat 125) = true
    ∧ ¬ ("col".data <:+: "\x7b\"target\":\"t\",\"file\":\"m/\",\"line\":0\x7d".data)
    ∧ (",\"col\":".data <:+: ",\"col\":\"var(--base)\"\x7d".data) := by
  exact ⟨by decide, by decide, by decide, by decide, by decide, by decide⟩

/-- Claim C6 amended: for every record passing the filter, the WireEvent
embeds a `meta` object holding the escaped target, the
manifest-directory/file locator and a line number defaulting to 0, and —
as a top-level field immediately following the `meta` object — a `col`
field holding either the symbolic `var(--…)` token of the named color
variant or `#` plus eight uppercase hex digits for the explicit-hex
variant. -/
theorem meta_and_col_fields (lg : WebVLogger) (md : List Char) (r : VRecord)
    (he : enabled lg r.target = true) :
    (∃ start, vlog lg md r = some (start
        ++ ",\"meta\":\x7b\"target\":\"".data ++ escapeDefault r.target
        ++ "\",\"file\":\"".data ++ escapeDefault md ++ ['/']
        ++ escapeDefault ((r.file.getD []).dropWhile (· = '.'))
        ++ "\",\"line\":".data ++ (Nat.repr (r.line.getD 0)).data
        ++ "\x7d,\"col\":\"".data ++ colorToken r.color ++ "\"\x7d".data))
    ∧ (r.line = none → (Nat.repr (r.line.getD 0)).data = "0".data)
    ∧ colorToken Color.Base = "var(--base)".data
    ∧ colorToken Color.Healthy = "var(--healthy)".data
    ∧ colorToken Color.Error = "var(--error)".data
    ∧ colorToken Color.Warn = "var(--warn)".data
    ∧ colorToken Color.Info = "var(--info)".data
    ∧ colorToken Color.X = "var(--x)".data
    ∧ colorToken Color.Y = "var(--y)".data
    ∧ colorToken Color.Z = "var(--z)".data
    ∧ (∀ code, code < 2 ^ 32 → colorToken (Color.Hex code) = '#' :: toHex8 code
        ∧ (toHex8 code).length = 8
        ∧ ∀ ch ∈ toHex8 code,
            (48 ≤ ch.toNat ∧ ch.toNat ≤ 57) ∨ (65 ≤ ch.toNat ∧ ch.toNat ≤ 70)) := by
  refine ⟨?_, fun h => by rw [h]; rfl, rfl, rfl, rfl, rfl, rfl, rfl, rfl, rfl,
    fun code _ => ⟨rfl, rfl, ?_⟩⟩
  · rw [vlog, he]
    simp only [Bool.not_true, Bool.false_eq_true, if_false]
    exact ⟨_, by rw [colorMeta]⟩
  · have hdig : ∀ d, d < 16 →
        (48 ≤ (hexDigitCharUpper d).toNat ∧ (hexDigitCharUpper d).toNat ≤ 57)
        ∨ (65 ≤ (hexDigitCharUpper d).toNat ∧ (hexDigitCharUpper d).toNat ≤ 70) := by
      intro d hd
      interval_cases d <;> decide
    intro ch hch
    simp only [toHex8, List.mem_cons, List.not_mem_nil, or_false] at hch
    rcases hch with rfl | rfl | rfl | rfl | rfl | rfl | rfl | rfl <;>
      exact hdig _ (Nat.mod_lt _ (by norm_num))

/-- Witness for C6 amended: a record with the explicit-hex color
`0xA0B1C2D3` and no line number renders the meta object with line 0 and
a `col` field of `#A0B1C2D3`. -/
theorem meta_and_col_fields_witness :
    (∃ start, vlog ⟨[]⟩ "m".data
        ⟨"t".data, none, none, "s".data, "1".data, Color.Hex 0xA0B1C2D3, Visual.Message,
          "a".data⟩
      = some (start
        ++ ",\"meta\":\x7b\"target\":\"".data ++ escapeDefault "t".data
        ++ "\",\"file\":\"".data ++ escapeDefault "m".data ++ ['/']
        ++ escapeDefault (((none : Option (List Char)).getD []).dropWhile (· = '.'))
        ++ "\",\"line\":".data ++ (Nat.repr ((none : Option Nat).getD 0)).data
        ++ "\x7d,\"col\":\"".data ++ colorToken (Color.Hex 0xA0B1C2D3) ++ "\"\x7d".data))
    ∧ colorToken (Color.Hex 0xA0B1C2D3) = '#' :: toHex8 0xA0B1C2D3
    ∧ toHex8 0xA0B1C2D3 = "A0B1C2D3".data := by
  have h := meta_and_col_fields ⟨[]⟩ "m".data
    ⟨"t".data, none, none, "s".data, "1".data, Color.Hex 0xA0B1C2D3, Visual.Message, "a".data⟩
    (by decide)
  exact ⟨h.1, (h.2.2.2.2.2.2.2.2.2.2 0xA0B1C2D3 (by norm_num)).1, by decide⟩

/-- Claim C7: the event encoder is total on its closed input domain —
every record that reaches it (every color variant including explicit
hex, every visual kind, every text) is encoded to a WireEvent string;
no input reaches a panic or error branch (the source's catch-all
`unimplemented!()` arm is unreachable on the closed color union, and
the `write!` into a `String` cannot fail).  The produced WireEvent is a
nonempty object-shaped string. -/
theorem encoder_total (lg : WebVLogger) (md : List Char) (r : VRecord)
    (he : enabled lg r.target = true) :
    ∃ w, vlog lg md r = some w ∧ w ≠ []
      ∧ w.head? = some (Char.ofNat 123) ∧ w.getLast? = some (Char.ofNat 125) := by
  have hcm : ∀ start : List Char, start.head? = some (Char.ofNat 123) →
      colorMeta md r start ≠ []
      ∧ (colorMeta md r start).head? = some (Char.ofNat 123)
      ∧ (colorMeta md r start).getLast? = some (Char.ofNat 125) := by
    intro start hs
    refine ⟨?_, ?_, ?_⟩
    · rw [colorMeta]
      simp
    · rw [colorMeta]
      simp [List.append_assoc, List.head?_append, hs]
    · rw [colorMeta, List.getLast?_append]
      rfl
  have hstart : (visualStart (escapeDefault r.args) (escapeDefault r.surface) r.size
      r.visual).head? = some (Char.ofNat 123) := by
    cases r.visual <;> simp [visualStart, List.head?_append]
  rw [vlog, he]
  simp only [Bool.not_true, Bool.false_eq_true, if_false]
  exact ⟨_, rfl, (hcm _ hstart).1, (hcm _ hstart).2.1, (hcm _ hstart).2.2⟩

/-- Witness for C7: a line-visual record with the explicit-hex color is
encoded into a braced WireEvent. -/
theorem encoder_total_witness :
    ∃ w, vlog ⟨[]⟩ "m".data
        ⟨"t".data, some "f.rs".data, some 3, "s".data, "1".data, Color.Hex 7,
          Visual.Line "0".data "1".data "2".data "3".data "4".data "5".data "Arrow".data,
          "lbl".data⟩ = some w
      ∧ w ≠ [] ∧ w.head? = some (Char.ofNat 123) ∧ w.getLast? = some (Char.ofNat 125) :=
  encoder_total ⟨[]⟩ "m".data
    ⟨"t".data, some "f.rs".data, some 3, "s".data, "1".data, Color.Hex 7,
      Visual.Line "0".data "1".data "2".data "3".data "4".data "5".data "Arrow".data,
      "lbl".data⟩ (by decide)

/-- The streaming loop on clean rounds followed by a terminal read:
frames for the clean rounds are written, then the flag is cleared, the
condition broadcast, and the handler returns `Ok`. -/
theorem runStreaming_terminal (pre : List StreamRound) (round : StreamRound)
    (post : List StreamRound) (flag : Bool)
    (hpre : ∀ r ∈ pre, r.reads.any chunkTerminal = false ∧ r.writeOk = true)
    (hterm : round.reads.any chunkTerminal = true) :
    runStreaming (pre ++ round :: post) flag
      = ⟨false, Except.ok (), pre.flatMap (fun r => frameBytes r.msg), true⟩ := by
  induction pre with
  | nil => simp [runStreaming, hterm]
  | cons r pre ih =>
    have h := hpre r (List.mem_cons_self r pre)
    have ih2 := ih fun q hq => hpre q (List.mem_cons_of_mem r hq)
    simp [runStreaming, h.1, h.2, ih2]

/-- The streaming loop on clean rounds followed by a failing write:
the error propagates and the flag and condition are left untouched. -/
theorem runStreaming_writeError (pre : List StreamRound) (round : StreamRound)
    (post : List StreamRound) (flag : Bool)
    (hpre : ∀ r ∈ pre, r.reads.any chunkTerminal = false ∧ r.writeOk = true)
    (hterm : round.reads.any chunkTerminal = false) (hw : round.writeOk = false) :
    runStreaming (pre ++ round :: post) flag
      = ⟨flag, Except.error (), pre.flatMap (fun r => frameBytes r.msg), false⟩ := by
  induction pre with
  | nil => simp [runStreaming, hterm, hw]
  | cons r pre ih =>
    have h := hpre r (List.mem_cons_self r pre)
    have ih2 := ih fun q hq => hpre q (List.mem_cons_of_mem r hq)
    simp [runStreaming, h.1, h.2, ih2]

/-- Claim C8: when a read during streaming returns zero bytes or a chunk
containing the close opcode `0x88`, the session ends — the Rendezvous
flag is cleared, the condition is broadcast, the handler returns `Ok`,
and the accept loop goes on to the next connection; a caller woken at
upgrade time is not blocked by `wait_for_connection` while the flag is
true. -/
theorem close_ends_session (c : Conn) (key : List Char) (pre : List StreamRound)
    (round : StreamRound) (post : List StreamRound) (flag : Bool)
    (hup : handshake (scanRequest c.lines [] []).1 (scanRequest c.lines [] []).2
      = HsResponse.Upgrade key)
    (hrounds : c.rounds = pre ++ round :: post)
    (hpre : ∀ r ∈ pre, r.reads.any chunkTerminal = false ∧ r.writeOk = true)
    (hterm : round.reads.any chunkTerminal = true) :
    runStreaming c.rounds true
      = ⟨false, Except.ok (), pre.flatMap (fun r => frameBytes r.msg), true⟩
    ∧ handleConnection c flag = (false, Except.ok ())
    ∧ (∀ cs, serverLoop (c :: cs) flag = serverLoop cs false)
    ∧ waitBlocks true = false := by
  have hrun : runStreaming c.rounds true
      = ⟨false, Except.ok (), pre.flatMap (fun r => frameBytes r.msg), true⟩ := by
    rw [hrounds]
    exact runStreaming_terminal pre round post true hpre hterm
  have hhc : handleConnection c flag = (false, Except.ok ()) := by
    simp only [handleConnection, hup, hrun]
  refine ⟨hrun, hhc, fun cs => ?_, rfl⟩
  simp only [serverLoop, hhc]

set_option maxRecDepth 100000 in
/-- Witness for C8: a two-round session whose second round receives a
close frame; the frame for the first round is written, then the session
ends cleanly with the flag cleared and broadcast. -/
theorem close_ends_session_witness :
    runStreaming [⟨[], [104, 105], true⟩, ⟨[ReadChunk.bytes [8, 0x88]], [1], true⟩] true
      = ⟨false, Except.ok (),
          ([⟨[], [104, 105], true⟩] : List StreamRound).flatMap (fun r => frameBytes r.msg),
          true⟩
    ∧ handleConnection
        ⟨["GET / HTTP/1.1".data, "Sec-WebSocket-Key: x".data],
          [⟨[], [104, 105], true⟩, ⟨[ReadChunk.bytes [8, 0x88]], [1], true⟩]⟩ false
      = (false, Except.ok ())
    ∧ waitBlocks true = false := by
  have h := close_ends_session
    ⟨["GET / HTTP/1.1".data, "Sec-WebSocket-Key: x".data],
      [⟨[], [104, 105], true⟩, ⟨[ReadChunk.bytes [8, 0x88]], [1], true⟩]⟩
    (acceptToken "x".data)
    [⟨[], [104, 105], true⟩] ⟨[ReadChunk.bytes [8, 0x88]], [1], true⟩ [] false
    (by decide) rfl (by decide) (by decide)
  exact ⟨h.1, h.2.1, h.2.2.2⟩

/-- Claim C9: when the session ends because a frame write or flush
fails — no close opcode and no zero-byte read was seen — the handler
propagates the error and the Rendezvous flag stays true, so a later
`wait_for_connection` call does not block even though no viewer is
attached any more. -/
theorem write_error_keeps_flag (c : Conn) (key : List Char) (pre : List StreamRound)
    (round : StreamRound) (post : List StreamRound) (flag : Bool)
    (hup : handshake (scanRequest c.lines [] []).1 (scanRequest c.lines [] []).2
      = HsResponse.Upgrade key)
    (hrounds : c.rounds = pre ++ round :: post)
    (hpre : ∀ r ∈ pre, r.reads.any chunkTerminal = false ∧ r.writeOk = true)
    (hterm : round.reads.any chunkTerminal = false) (hw : round.writeOk = false) :
    runStreaming c.rounds true
      = ⟨true, Except.error (), pre.flatMap (fun r => frameBytes r.msg), false⟩
    ∧ handleConnection c flag = (true, Except.error ())
    ∧ (∀ cs, serverLoop (c :: cs) flag = serverLoop cs true)
    ∧ waitBlocks true = false := by
  have hrun : runStreaming c.rounds true
      = ⟨true, Except.error (), pre.flatMap (fun r => frameBytes r.msg), false⟩ := by
    rw [hrounds]
    exact runStreaming_writeError pre round post true hpre hterm hw
  have hhc : handleConnection c flag = (true, Except.error ()) := by
    simp only [handleConnection, hup, hrun]
  refine ⟨hrun, hhc, fun cs => ?_, rfl⟩
  simp only [serverLoop, hhc]

set_option maxRecDepth 100000 in
/-- Witness for C9: a session whose only round sees no close but fails
to write; the error propagates, no broadcast happens, and the flag is
left true, so `wait_for_connection` would return immediately. -/
theorem write_error_keeps_flag_witness :
    runStreaming [⟨[ReadChunk.bytes [1, 2]], [104], false⟩] true
      = ⟨true, Except.error (), [], false⟩
    ∧ handleConnection
        ⟨["GET / HTTP/1.1".data, "Sec-WebSocket-Key: x".data],
          [⟨[ReadChunk.bytes [1, 2]], [104], false⟩]⟩ false
      = (true, Except.error ())
    ∧ waitBlocks true = false := by
  have h := write_error_keeps_flag
    ⟨["GET / HTTP/1.1".data, "Sec-WebSocket-Key: x".data],
      [⟨[ReadChunk.bytes [1, 2]], [104], false⟩]⟩
    (acceptToken "x".data)
    [] ⟨[ReadChunk.bytes [1, 2]], [104], false⟩ [] false
    (by decide) rfl (by decide) (by decide) (by decide)
  exact ⟨h.1, h.2.1, h.2.2.2⟩
